import Mathlib

/-!
# Property and Algorithm: type-shifting containers without RTTI

A shallow embedding of `Property.h`, `Algorithm.h` and `PropertyTreeDemo.cpp`.

* The registration macros `REGISTER_PROPERTY_TYPE(TYPE, N)` and
  `REGISTER_ALGORITHM_TYPE(TYPE_A, TYPE_B, N)` are embedded as the list of
  registrations a translation unit contains, together with the two checks the
  compiler performs on them (one explicit specialisation per type, one friend
  `dummy` per index).
* `Property<KeyType>` owns a raw `Placeholder*`, so it is embedded over an
  explicit heap: `new` writes a cell, `delete` clears it, and dereferencing a
  cleared cell is undefined behaviour.
* `assert` is embedded with the build mode as a parameter: with `NDEBUG`
  defined the assertion expands to nothing.
* `Algorithm` is embedded twice: with the holder as a value, for what one
  object does, and over a free store with the use counts of `boost::shared_ptr`,
  for what copies share; `AlgorithmRef.view` takes the second to the first.
  Both take the callable as a function of its argument.  What a call does to a
  `boost::function` that is empty or whose target keeps state is embedded in
  the section on targets that keep state.
* A program is embedded as the list of its translation units, each compiled on
  its own.
-/

namespace Sandcastle

/-! ## Outcomes of a call -/

/-- What a call does: it returns, it dies on the failed assertion
`"Invalid Type Conversion"`, or its behaviour is undefined (a pointer that is
not live is used, or a `static_cast` names a type the object does not have). -/
inductive Outcome (α : Type) where
  | returned (v : α)
  | typeMismatch
  | undefined

/-! ## The compile-time registry -/

/-- The two diagnostics a registration can provoke. -/
inductive CompileError where
  /-- The specialisation `template<> struct PropertyTypeRegistry<TYPE>` is defined a second time. -/
  | redefinition
  /-- Two friends `dummy(registered_index<N>)` differ only in their return type. -/
  | ambiguatingDeclaration
  deriving DecidableEq, Repr

/-- One expansion of `REGISTER_PROPERTY_TYPE(TYPE, N)` after the registrations
`seen` of the same translation unit.  The base class `register_type<TYPE, N>` is
instantiated, which declares the friend
`registered_type<TYPE> dummy(registered_index<N>)`; a friend for the same `N`
from another type differs only in its return type.  The explicit specialisation
itself may be defined once.  `algo_register_type` and `REGISTER_ALGORITHM_TYPE`
of `Algorithm.h` are the same text with the `algo_` names and `TypePair` keys. -/
def register_type {α : Type} [DecidableEq α] (seen : List (α × Int)) (T : α) (N : Int) :
    Except CompileError (List (α × Int)) :=
  if seen.any (fun r => decide (r.2 = N ∧ r.1 ≠ T)) then
    .error .ambiguatingDeclaration
  else if seen.any (fun r => decide (r.1 = T)) then
    .error .redefinition
  else
    .ok (seen ++ [(T, N)])

/-- The registrations of a translation unit, in source order. -/
def registerAll {α : Type} [DecidableEq α] :
    List (α × Int) → List (α × Int) → Except CompileError (List (α × Int))
  | seen, [] => .ok seen
  | seen, (T, N) :: rest =>
    match register_type seen T N with
    | .error e => .error e
    | .ok seen1 => registerAll seen1 rest

/-- The translation unit compiles. -/
def compiles {α : Type} [DecidableEq α] (regs : List (α × Int)) : Bool :=
  match registerAll [] regs with
  | .ok _ => true
  | .error _ => false

/-- A program builds: each of its translation units is compiled on its own, and
the units are linked.  A registration defines a class, an enumerator and a
friend that is defined in its class and so is inline; none of them is a symbol
the linker compares between units, so linking adds no check. -/
def builds {α : Type} [DecidableEq α] (units : List (List (α × Int))) : Bool :=
  units.all compiles

/-- The types a translation unit can name, what their values are, and the
`REGISTER_PROPERTY_TYPE` lines it contains. -/
structure PropertyTypes where
  CType : Type
  decEq : DecidableEq CType
  denote : CType → Type
  registrations : List (CType × Int)

attribute [instance] PropertyTypes.decEq

/-- A type for which `PropertyTypeRegistry<T>` is specialised.  For any other
type the template is incomplete and `PropertyTypeRegistry<T>::value` is not an
expression. -/
def PropertyTypes.Registered (R : PropertyTypes) : Type :=
  { T : R.CType // (R.registrations.lookup T).isSome = true }

instance (R : PropertyTypes) : DecidableEq R.Registered :=
  fun a b => decidable_of_iff (a.1 = b.1) Subtype.ext_iff.symm

/-- The member `PropertyTypeRegistry<T>::value`. -/
def PropertyTypeRegistry (R : PropertyTypes) (T : R.Registered) : Int :=
  (R.registrations.lookup T.1).get T.2

/-! ## Property -/

/-- An address returned by `new`. -/
abbrev Addr := Nat

/-- An object seen through `Placeholder*`: its dynamic type is `Holder<T>` for
a registered `T`, and it holds `m_held`. -/
structure Placeholder (R : PropertyTypes) where
  T : R.Registered
  m_held : R.denote T.1

/-- The free store: the live `Holder` objects by address. -/
abbrev Heap (R : PropertyTypes) := Addr → Option (Placeholder R)

/-- The statement `new Holder<T>(value)` where the allocation function returns `a`. -/
def Heap.new {R : PropertyTypes} (h : Heap R) (a : Addr) (b : Placeholder R) : Heap R :=
  Function.update h a (some b)

/-- The statement `delete ptr` for a live object. -/
def Heap.delete {R : PropertyTypes} (h : Heap R) (a : Addr) : Heap R :=
  Function.update h a none

/-- A `Property<KeyType>` object. -/
structure Property (K : Type) where
  m_key : K
  m_type : Int
  m_value : Addr

namespace Property

variable {R : PropertyTypes} {K : Type}

/-- The static member `type<T>()`. -/
def typeOf (R : PropertyTypes) (T : R.Registered) : Int :=
  PropertyTypeRegistry R T

end Property

/-- The virtual `Holder<T>::type()`. -/
def Placeholder.type {R : PropertyTypes} (b : Placeholder R) : Int :=
  Property.typeOf R b.T

/-- The virtual `Holder<T>::clone()`: `new Holder(m_held)` at the address `a`. -/
def Placeholder.clone {R : PropertyTypes} (h : Heap R) (a : Addr) (b : Placeholder R) :
    Heap R × Addr :=
  (h.new a ⟨b.T, b.m_held⟩, a)

/-- The member `Holder<T>::get()`. -/
def Placeholder.get {R : PropertyTypes} (b : Placeholder R) : R.denote b.T.1 :=
  b.m_held

namespace Property

variable {R : PropertyTypes} {K : Type}

/-- The constructor `Property(key, defaultValue)`; `new` returns `a`. -/
def construct (h : Heap R) (a : Addr) (key : K) (T : R.Registered)
    (defaultValue : R.denote T.1) : Heap R × Property K :=
  (h.new a ⟨T, defaultValue⟩, ⟨key, typeOf R T, a⟩)

/-- The implicitly defined copy constructor and copy assignment: `Property`
declares neither, so each member is copied, the pointer included. -/
def copy (p : Property K) : Property K :=
  ⟨p.m_key, p.m_type, p.m_value⟩

/-- The member `type()`. -/
def type (p : Property K) : Int := p.m_type

/-- The member `key()`. -/
def key (p : Property K) : K := p.m_key

/-- The expression `static_cast<Holder<T>*>(m_value)->get()`. -/
def staticCastGet (h : Heap R) (m_value : Addr) (T : R.Registered) : Outcome (R.denote T.1) :=
  match h m_value with
  | none => .undefined
  | some b => if e : b.T = T then .returned (e ▸ b.get) else .undefined

/-- The member `get<T>()`.  `ndebug` says whether `NDEBUG` is defined, in
which case `assert` expands to nothing. -/
def get (ndebug : Bool) (h : Heap R) (p : Property K) (T : R.Registered) :
    Outcome (R.denote T.1) :=
  if !ndebug && decide (typeOf R T ≠ p.m_type) then .typeMismatch
  else staticCastGet h p.m_value T

/-- The member `set<T>(value)`; `new` returns `a`.  The first statement is
`delete m_value`, which is undefined for a pointer that is not live. -/
def set (h : Heap R) (a : Addr) (p : Property K) (T : R.Registered) (value : R.denote T.1) :
    Outcome (Heap R × Property K) :=
  match h p.m_value with
  | none => .undefined
  | some _ => .returned ((h.delete p.m_value).new a ⟨T, value⟩, ⟨p.m_key, typeOf R T, a⟩)

/-- The destructor `~Property()`, which is `delete m_value`. -/
def destroy (h : Heap R) (p : Property K) : Outcome (Heap R) :=
  match h p.m_value with
  | none => .undefined
  | some _ => .returned (h.delete p.m_value)

end Property

/-- A call `set<T>(value)` together with the address its `new` returns. -/
structure SetCall (R : PropertyTypes) where
  T : R.Registered
  value : R.denote T.1
  a : Addr

/-- A sequence of `set` calls on one `Property`, oldest first. -/
def Property.runSets {R : PropertyTypes} {K : Type} :
    Heap R × Property K → List (SetCall R) → Outcome (Heap R × Property K)
  | s, [] => .returned s
  | s, c :: cs =>
    match Property.set s.1 c.a s.2 c.T c.value with
    | .returned s1 => Property.runSets s1 cs
    | .typeMismatch => .typeMismatch
    | .undefined => .undefined

/-! ## Algorithm -/

/-- The template `TypePair<T, U>`. -/
structure TypePair (α : Type) where
  typeA : α
  typeB : α
  deriving DecidableEq

/-- The types a translation unit can name, what their values are, and the
`REGISTER_ALGORITHM_TYPE` lines it contains. -/
structure AlgorithmTypes where
  CType : Type
  decEq : DecidableEq CType
  denote : CType → Type
  registrations : List (TypePair CType × Int)

attribute [instance] AlgorithmTypes.decEq

/-- A pair for which `AlgorithmTypeRegistry<TypePair<A, B> >` is specialised. -/
def AlgorithmTypes.Registered (R : AlgorithmTypes) : Type :=
  { P : TypePair R.CType // (R.registrations.lookup P).isSome = true }

instance (R : AlgorithmTypes) : DecidableEq R.Registered :=
  fun a b => decidable_of_iff (a.1 = b.1) Subtype.ext_iff.symm

/-- The member `AlgorithmTypeRegistry<TypePair<A, B> >::value`. -/
def AlgorithmTypeRegistry (R : AlgorithmTypes) (P : R.Registered) : Int :=
  (R.registrations.lookup P.1).get P.2

/-- The type `boost::function<result_type (argument_type)>`, for a target that
is present and computes a function of its argument.  The empty function and
targets that keep state are `BoostFunction` below. -/
abbrev AlgorithmTypes.function_type (R : AlgorithmTypes) (P : TypePair R.CType) : Type :=
  R.denote P.typeA → R.denote P.typeB

/-- An object seen through `AlgorithmPlaceholder*`: its dynamic type is
`AlgorithmHolder<ArgT, ResT>` for a registered pair, and it holds `m_held`. -/
structure AlgorithmPlaceholder (R : AlgorithmTypes) where
  P : R.Registered
  m_held : R.function_type P.1

/-- An `Algorithm` object.  The holder behind `m_algorithm` has no member that
modifies it and the `shared_ptr` keeps it alive while an `Algorithm` refers to
it, so the pointer is embedded as the holder it points to. -/
structure Algorithm (R : AlgorithmTypes) where
  m_type : Int
  m_algorithm : AlgorithmPlaceholder R

/-- The static member `type<ArgT, ResT>()`. -/
def Algorithm.typeOf (R : AlgorithmTypes) (P : R.Registered) : Int :=
  AlgorithmTypeRegistry R P

/-- The virtual `AlgorithmHolder<ArgT, ResT>::type()`. -/
def AlgorithmPlaceholder.type {R : AlgorithmTypes} (b : AlgorithmPlaceholder R) : Int :=
  Algorithm.typeOf R b.P

/-- The virtual `AlgorithmHolder<ArgT, ResT>::clone()`. -/
def AlgorithmPlaceholder.clone {R : AlgorithmTypes} (b : AlgorithmPlaceholder R) :
    AlgorithmPlaceholder R :=
  ⟨b.P, b.m_held⟩

/-- The member `AlgorithmHolder<ArgT, ResT>::call(arg)`. -/
def AlgorithmPlaceholder.call {R : AlgorithmTypes} (b : AlgorithmPlaceholder R)
    (arg : R.denote b.P.1.typeA) : R.denote b.P.1.typeB :=
  b.m_held arg

namespace Algorithm

variable {R : AlgorithmTypes}

/-- The constructor `Algorithm(algorithm)`. -/
def construct (P : R.Registered) (algorithm : R.function_type P.1) : Algorithm R :=
  ⟨typeOf R P, ⟨P, algorithm⟩⟩

/-- The implicitly defined copy constructor and copy assignment. -/
def copy (a : Algorithm R) : Algorithm R :=
  ⟨a.m_type, a.m_algorithm⟩

/-- The member `type()`. -/
def type (a : Algorithm R) : Int := a.m_type

/-- The expression `static_cast<AlgorithmHolder<ArgT, ResT>*>(aptr)->call(arg)`. -/
def staticCastCall (b : AlgorithmPlaceholder R) (P : R.Registered)
    (arg : R.denote P.1.typeA) : Outcome (R.denote P.1.typeB) :=
  if e : P = b.P then .returned (e ▸ b.call (e ▸ arg)) else .undefined

/-- The member `call<ArgT, ResT>(arg)`.  `ndebug` says whether `NDEBUG` is
defined, in which case `assert` expands to nothing. -/
def call (ndebug : Bool) (a : Algorithm R) (P : R.Registered) (arg : R.denote P.1.typeA) :
    Outcome (R.denote P.1.typeB) :=
  if !ndebug && decide (typeOf R P ≠ a.m_type) then .typeMismatch
  else staticCastCall a.m_algorithm P arg

/-- The member `set<ArgT, ResT>(algorithm)`. -/
def set (_a : Algorithm R) (P : R.Registered) (algorithm : R.function_type P.1) :
    Algorithm R :=
  ⟨typeOf R P, ⟨P, algorithm⟩⟩

end Algorithm

/-- A call `set<ArgT, ResT>(algorithm)`. -/
structure AlgorithmSetCall (R : AlgorithmTypes) where
  P : R.Registered
  algorithm : R.function_type P.1

/-- A sequence of `set` calls on one `Algorithm`, oldest first. -/
def Algorithm.runSets {R : AlgorithmTypes} :
    Algorithm R → List (AlgorithmSetCall R) → Algorithm R
  | a, [] => a
  | a, c :: cs => Algorithm.runSets (Algorithm.set a c.P c.algorithm) cs

/-! ## Algorithm on the free store

The same members as above with `m_algorithm` as an address, to follow what
copies of an `Algorithm` share.  A `boost::shared_ptr` owns the object together
with the other `shared_ptr`s copied from it; the object is deleted when its last
owner goes. -/

/-- An `AlgorithmHolder` on the free store and the number of `shared_ptr`s that
own it. -/
structure SharedCell (R : AlgorithmTypes) where
  object : AlgorithmPlaceholder R
  use_count : Nat

/-- The free store: the live `AlgorithmHolder` objects by address. -/
abbrev SharedHeap (R : AlgorithmTypes) := Addr → Option (SharedCell R)

/-- The expression `boost::shared_ptr<Y>(new Y(...))` where `new` returns `a`:
the new object has one owner. -/
def SharedHeap.make {R : AlgorithmTypes} (h : SharedHeap R) (a : Addr)
    (b : AlgorithmPlaceholder R) : SharedHeap R :=
  Function.update h a (some ⟨b, 1⟩)

/-- The copy of a `shared_ptr`: the object has one more owner. -/
def SharedHeap.acquire {R : AlgorithmTypes} (h : SharedHeap R) (p : Addr) :
    Outcome (SharedHeap R) :=
  match h p with
  | none => .undefined
  | some c => .returned (Function.update h p (some ⟨c.object, c.use_count + 1⟩))

/-- The end of a `shared_ptr`: the object has one owner fewer, and the last
owner deletes it. -/
def SharedHeap.release {R : AlgorithmTypes} (h : SharedHeap R) (p : Addr) :
    Outcome (SharedHeap R) :=
  match h p with
  | none => .undefined
  | some c =>
    if c.use_count ≤ 1 then .returned (Function.update h p none)
    else .returned (Function.update h p (some ⟨c.object, c.use_count - 1⟩))

/-- The virtual `AlgorithmHolder<ArgT, ResT>::clone()` on the free store:
`boost::shared_ptr<AlgorithmHolder>(new AlgorithmHolder(m_held))`, where `new`
returns `a`. -/
def SharedHeap.clone {R : AlgorithmTypes} (h : SharedHeap R) (a : Addr)
    (b : AlgorithmPlaceholder R) : SharedHeap R × Addr :=
  (h.make a b.clone, a)

/-- An `Algorithm` object whose `m_algorithm` is an address. -/
structure AlgorithmRef where
  m_type : Int
  m_algorithm : Addr

namespace AlgorithmRef

variable {R : AlgorithmTypes}

/-- The constructor `Algorithm(algorithm)`; `new` returns `a`. -/
def construct (h : SharedHeap R) (a : Addr) (P : R.Registered)
    (algorithm : R.function_type P.1) : SharedHeap R × AlgorithmRef :=
  (h.make a ⟨P, algorithm⟩, ⟨Algorithm.typeOf R P, a⟩)

/-- The implicitly defined copy constructor: `m_type` is copied and the
`shared_ptr` is copied, which adds an owner. -/
def copy (h : SharedHeap R) (x : AlgorithmRef) : Outcome (SharedHeap R × AlgorithmRef) :=
  match h.acquire x.m_algorithm with
  | .returned h1 => .returned (h1, ⟨x.m_type, x.m_algorithm⟩)
  | .typeMismatch => .typeMismatch
  | .undefined => .undefined

/-- The destructor `~Algorithm()`, which ends `m_algorithm`. -/
def destroy (h : SharedHeap R) (x : AlgorithmRef) : Outcome (SharedHeap R) :=
  h.release x.m_algorithm

/-- The member `type()`. -/
def type (x : AlgorithmRef) : Int := x.m_type

/-- The member `call<ArgT, ResT>(arg)`. -/
def call (ndebug : Bool) (h : SharedHeap R) (x : AlgorithmRef) (P : R.Registered)
    (arg : R.denote P.1.typeA) : Outcome (R.denote P.1.typeB) :=
  if !ndebug && decide (Algorithm.typeOf R P ≠ x.m_type) then .typeMismatch
  else
    match h x.m_algorithm with
    | none => .undefined
    | some c => Algorithm.staticCastCall c.object P arg

/-- The member `set<ArgT, ResT>(algorithm)`; `new` returns `a`.  The new
holder is made first, then the assignment ends the `shared_ptr` that
`m_algorithm` was. -/
def set (h : SharedHeap R) (a : Addr) (x : AlgorithmRef) (P : R.Registered)
    (algorithm : R.function_type P.1) : Outcome (SharedHeap R × AlgorithmRef) :=
  match (h.make a ⟨P, algorithm⟩).release x.m_algorithm with
  | .returned h1 => .returned (h1, ⟨Algorithm.typeOf R P, a⟩)
  | .typeMismatch => .typeMismatch
  | .undefined => .undefined

/-- The `Algorithm` that the object at its address makes of an `AlgorithmRef`. -/
def view (h : SharedHeap R) (x : AlgorithmRef) : Option (Algorithm R) :=
  match h x.m_algorithm with
  | none => none
  | some c => some ⟨x.m_type, c.object⟩

end AlgorithmRef

/-! ## Algorithm on the free store: targets that keep state

The member `AlgorithmHolder::call` is `return m_held(arg);`.  A
`boost::function` may be empty, and its target may be a function object with
members of its own that its call operator changes; `operator()` of
`boost::function` is `const` all the same.  Here `m_held` is embedded with
that state, and a call gives the holder as the call leaves it. -/

/-- What a `boost::function<Res (Arg)>` holds: nothing, or a target with the
members `state` and the call operator `invoke`, which gives the result and the
members after the call. -/
inductive BoostFunction (S A B : Type) where
  | empty
  | target (state : S) (invoke : S → A → B × S)

/-- What `m_held(arg)` does: it returns a value, or it throws
`boost::bad_function_call`. -/
inductive CallResult (B : Type) where
  | value (v : B)
  | bad_function_call

/-- The call `m_held(arg)`: what it does, and `m_held` after it. -/
def BoostFunction.call {S A B : Type} :
    BoostFunction S A B → A → CallResult B × BoostFunction S A B
  | .empty, _ => (.bad_function_call, .empty)
  | .target s inv, x => (.value (inv s x).1, .target (inv s x).2 inv)

/-- A `boost::function` made from a function of the argument alone, which
leaves the members `s` of its target alone. -/
def BoostFunction.ofFunction {S A B : Type} (s : S) (f : A → B) : BoostFunction S A B :=
  .target s (fun t x => (f x, t))

/-- An `AlgorithmHolder<ArgT, ResT>` whose `m_held` has state. -/
structure StatefulHolder (R : AlgorithmTypes) (S : Type) where
  P : R.Registered
  m_held : BoostFunction S (R.denote P.1.typeA) (R.denote P.1.typeB)

/-- The member `AlgorithmHolder<ArgT, ResT>::call(arg)`: what `m_held(arg)`
does, and the holder after it. -/
def StatefulHolder.call {R : AlgorithmTypes} {S : Type} (b : StatefulHolder R S)
    (arg : R.denote b.P.1.typeA) : CallResult (R.denote b.P.1.typeB) × StatefulHolder R S :=
  ((b.m_held.call arg).1, ⟨b.P, (b.m_held.call arg).2⟩)

/-- A holder on the free store and the number of `shared_ptr`s that own it. -/
structure StatefulCell (R : AlgorithmTypes) (S : Type) where
  object : StatefulHolder R S
  use_count : Nat

/-- The free store: the live holders by address. -/
abbrev StatefulHeap (R : AlgorithmTypes) (S : Type) := Addr → Option (StatefulCell R S)

namespace Stateful

variable {R : AlgorithmTypes} {S : Type}

/-- The constructor `Algorithm(algorithm)`; `new` returns `a`. -/
def construct (h : StatefulHeap R S) (a : Addr) (P : R.Registered)
    (algorithm : BoostFunction S (R.denote P.1.typeA) (R.denote P.1.typeB)) :
    StatefulHeap R S × AlgorithmRef :=
  (Function.update h a (some ⟨⟨P, algorithm⟩, 1⟩), ⟨Algorithm.typeOf R P, a⟩)

/-- The member `type()`. -/
def type (x : AlgorithmRef) : Int := x.m_type

/-- The expression `static_cast<AlgorithmHolder<ArgT, ResT>*>(aptr)->call(arg)`. -/
def staticCastCall (b : StatefulHolder R S) (P : R.Registered) (arg : R.denote P.1.typeA) :
    Outcome (CallResult (R.denote P.1.typeB) × StatefulHolder R S) :=
  if e : P = b.P then .returned (e ▸ (b.call (e ▸ arg)).1, (b.call (e ▸ arg)).2)
  else .undefined

/-- The member `call<ArgT, ResT>(arg)`: what it does, and the free store after
it, in which the holder is as the call left it. -/
def call (ndebug : Bool) (h : StatefulHeap R S) (x : AlgorithmRef) (P : R.Registered)
    (arg : R.denote P.1.typeA) : Outcome (CallResult (R.denote P.1.typeB) × StatefulHeap R S) :=
  if !ndebug && decide (Algorithm.typeOf R P ≠ x.m_type) then .typeMismatch
  else
    match h x.m_algorithm with
    | none => .undefined
    | some c =>
      match staticCastCall c.object P arg with
      | .returned r =>
        .returned (r.1, Function.update h x.m_algorithm (some ⟨r.2, c.use_count⟩))
      | .typeMismatch => .typeMismatch
      | .undefined => .undefined

end Stateful

/-! ## The registrations of the sources -/

/-- The C++ types the sources register, and `float` as a type that they do not. -/
inductive CppType where
  | int
  | double
  | string
  | float
  deriving DecidableEq, Repr

/-- A `double` or `float` object, by its object representation. -/
structure Floating where
  bits : Nat
  deriving DecidableEq, Repr

/-- The values of each type. -/
def CppType.denote : CppType → Type
  | .int => Int
  | .double => Floating
  | .string => String
  | .float => Floating

/-- The lines `REGISTER_PROPERTY_TYPE(int, 0)` and `REGISTER_PROPERTY_TYPE(double, 1)`
of `Property.h`, then `REGISTER_PROPERTY_TYPE(std::string, 2)` of
`PropertyTreeDemo.cpp`. -/
def demoRegistrations : List (CppType × Int) :=
  [(.int, 0), (.double, 1), (.string, 2)]

/-- A second translation unit of a program: it includes `Property.h` and has the
line `REGISTER_PROPERTY_TYPE(float, 2)`. -/
def floatAtTwoRegistrations : List (CppType × Int) :=
  [(.int, 0), (.double, 1), (.float, 2)]

/-- A third translation unit of a program: it includes `Property.h` and has the
line `REGISTER_PROPERTY_TYPE(float, 3)`. -/
def floatAtThreeRegistrations : List (CppType × Int) :=
  [(.int, 0), (.double, 1), (.float, 3)]

/-- The translation unit `PropertyTreeDemo.cpp`. -/
def demoTypes : PropertyTypes :=
  ⟨CppType, inferInstance, CppType.denote, demoRegistrations⟩

/-- The lines `REGISTER_ALGORITHM_TYPE(int, int, 0)` and
`REGISTER_ALGORITHM_TYPE(double, double, 1)` of `Algorithm.h`. -/
def algorithmRegistrations : List (TypePair CppType × Int) :=
  [(⟨.int, .int⟩, 0), (⟨.double, .double⟩, 1)]

/-- A translation unit that includes `Algorithm.h` and registers nothing more. -/
def algorithmTypes : AlgorithmTypes :=
  ⟨CppType, inferInstance, CppType.denote, algorithmRegistrations⟩

/-- The type `int` of the demo. -/
def demoInt : demoTypes.Registered := ⟨CppType.int, rfl⟩

/-- The type `double` of the demo. -/
def demoDouble : demoTypes.Registered := ⟨CppType.double, rfl⟩

/-- The type `std::string` of the demo. -/
def demoString : demoTypes.Registered := ⟨CppType.string, rfl⟩

/-- A free store with no live object. -/
def emptyHeap (R : PropertyTypes) : Heap R := fun _ => none

/-- The statement `PropertyT property = PropertyT("myProperty", 10);` of `main`,
the copy from the temporary being elided. -/
def demoProperty : Heap demoTypes × Property String :=
  Property.construct (emptyHeap demoTypes) 0 "myProperty" demoInt (10 : Int)

/-- The pair `(int, int)` of `Algorithm.h`. -/
def algoIntInt : algorithmTypes.Registered := ⟨⟨CppType.int, CppType.int⟩, rfl⟩

/-- The pair `(double, double)` of `Algorithm.h`. -/
def algoDoubleDouble : algorithmTypes.Registered := ⟨⟨CppType.double, CppType.double⟩, rfl⟩

/-- A client translation unit that includes `Algorithm.h` and then has the lines
`REGISTER_ALGORITHM_TYPE(int, double, 2)` and `REGISTER_ALGORITHM_TYPE(double, int, 3)`. -/
def clientAlgorithmTypes : AlgorithmTypes :=
  ⟨CppType, inferInstance, CppType.denote,
    algorithmRegistrations ++ [(⟨.int, .double⟩, 2), (⟨.double, .int⟩, 3)]⟩

/-- The pair `(int, int)` in the client translation unit. -/
def clientIntInt : clientAlgorithmTypes.Registered := ⟨⟨CppType.int, CppType.int⟩, rfl⟩

/-- The pair `(int, double)` in the client translation unit. -/
def clientIntDouble : clientAlgorithmTypes.Registered := ⟨⟨CppType.int, CppType.double⟩, rfl⟩

/-- The pair `(double, double)` in the client translation unit. -/
def clientDoubleDouble : clientAlgorithmTypes.Registered :=
  ⟨⟨CppType.double, CppType.double⟩, rfl⟩

/-! ## Predicates used in the statements -/

/-- Two registrations that name different types and different indices. -/
def Apart {α : Type} (r s : α × Int) : Prop := r.1 ≠ s.1 ∧ r.2 ≠ s.2

instance {α : Type} [DecidableEq α] (r s : α × Int) : Decidable (Apart r s) :=
  inferInstanceAs (Decidable (r.1 ≠ s.1 ∧ r.2 ≠ s.2))

/-- The `Property` of the state owns the live box `b` and caches its tag. -/
def Property.Owns {R : PropertyTypes} {K : Type} (s : Heap R × Property K)
    (b : Placeholder R) : Prop :=
  s.1 s.2.m_value = some b ∧ s.2.m_type = b.type

/-- A call on a `Property`: `set<T>(value)` or `get<T>()`. -/
inductive PropertyCall (R : PropertyTypes) where
  | set (c : SetCall R)
  | get (T : R.Registered)

/-- A sequence of `set` and `get` calls on one `Property`, oldest first.  `get`
is a `const` member: when it returns, the object is as before. -/
def Property.run {R : PropertyTypes} {K : Type} (ndebug : Bool) :
    Heap R × Property K → List (PropertyCall R) → Outcome (Heap R × Property K)
  | s, [] => .returned s
  | s, .set c :: cs =>
    match Property.set s.1 c.a s.2 c.T c.value with
    | .returned s1 => Property.run ndebug s1 cs
    | .typeMismatch => .typeMismatch
    | .undefined => .undefined
  | s, .get T :: cs =>
    match Property.get ndebug s.1 s.2 T with
    | .returned _ => Property.run ndebug s cs
    | .typeMismatch => .typeMismatch
    | .undefined => .undefined

/-- The box a `Property` holds after a sequence of `set` calls: that of the
latest call, or the box `b` it held before when there is no call. -/
def Property.heldAfter {R : PropertyTypes} (b : Placeholder R) (calls : List (SetCall R)) :
    Placeholder R :=
  calls.foldl (fun _ c => ⟨c.T, c.value⟩) b

/-- The `Algorithm` holds the callable `f` of the pair `P`: its pointer is to a
live holder of `f` that has an owner, and it caches the tag of `P`. -/
def AlgorithmRef.Holds {R : AlgorithmTypes} (h : SharedHeap R) (x : AlgorithmRef)
    (P : R.Registered) (f : R.function_type P.1) : Prop :=
  (∃ n, h x.m_algorithm = some ⟨⟨P, f⟩, n + 1⟩) ∧ x.m_type = Algorithm.typeOf R P

/-- The `Algorithm` holds the `boost::function` `m_held` of the pair `P`: its
pointer is to a live holder of it that has an owner, and it caches the tag of
`P`. -/
def Stateful.Holds {R : AlgorithmTypes} {S : Type} (h : StatefulHeap R S) (x : AlgorithmRef)
    (P : R.Registered) (m_held : BoostFunction S (R.denote P.1.typeA) (R.denote P.1.typeB)) :
    Prop :=
  (∃ n, h x.m_algorithm = some ⟨⟨P, m_held⟩, n + 1⟩) ∧ x.m_type = Algorithm.typeOf R P

/-- The free store of holders of functions as a free store of holders with
state: each function is a target that leaves its members alone. -/
def StatefulHeap.ofShared {R : AlgorithmTypes} (h : SharedHeap R) : StatefulHeap R Unit :=
  fun a =>
    match h a with
    | none => none
    | some c => some ⟨⟨c.object.P, BoostFunction.ofFunction () c.object.m_held⟩, c.use_count⟩

/-- An empty free store of `AlgorithmHolder` objects. -/
def emptySharedHeap (R : AlgorithmTypes) : SharedHeap R := fun _ => none

/-! ## The registry: what a translation unit that compiles contains -/

theorem register_type_ok_iff {α : Type} [DecidableEq α] (seen : List (α × Int)) (T : α) (N : Int)
    (out : List (α × Int)) :
    register_type seen T N = .ok out ↔ (∀ r ∈ seen, Apart r (T, N)) ∧ out = seen ++ [(T, N)] := by
  unfold register_type Apart
  by_cases h1 : seen.any (fun r => decide (r.2 = N ∧ r.1 ≠ T)) = true
  · simp only [h1, if_true]
    constructor
    · intro h; cases h
    · rintro ⟨h, -⟩
      simp only [List.any_eq_true, decide_eq_true_eq] at h1
      obtain ⟨r, hr, h2, h3⟩ := h1
      exact absurd h2 (h r hr).2
  · by_cases h2 : seen.any (fun r => decide (r.1 = T)) = true
    · simp only [h1, h2, if_true, if_false]
      constructor
      · intro h; cases h
      · rintro ⟨h, -⟩
        simp only [List.any_eq_true, decide_eq_true_eq] at h2
        obtain ⟨r, hr, h3⟩ := h2
        exact absurd h3 (h r hr).1
    · simp only [h1, h2, if_false]
      simp only [List.any_eq_true, decide_eq_true_eq, not_exists, not_and] at h1 h2
      constructor
      · intro h
        injection h with h
        refine ⟨fun r hr => ⟨h2 r hr, fun h3 => ?_⟩, h.symm⟩
        exact h1 r hr h3 (h2 r hr)
      · rintro ⟨-, h⟩
        rw [h]
        simp

theorem registerAll_ok_iff {α : Type} [DecidableEq α] (rest seen out : List (α × Int))
    (hseen : seen.Pairwise Apart) :
    registerAll seen rest = .ok out ↔ (seen ++ rest).Pairwise Apart ∧ out = seen ++ rest := by
  induction rest generalizing seen with
  | nil => simp [registerAll, hseen, eq_comm]
  | cons r rest ih =>
    obtain ⟨T, N⟩ := r
    unfold registerAll
    cases hreg : register_type seen T N with
    | error e =>
      simp only []
      constructor
      · intro h; cases h
      · rintro ⟨h, -⟩
        exfalso
        have h1 : ∀ r ∈ seen, Apart r (T, N) := by
          intro r hr
          rw [List.pairwise_append] at h
          exact h.2.2 r hr (T, N) (List.mem_cons_self _ _)
        have := (register_type_ok_iff seen T N (seen ++ [(T, N)])).2 ⟨h1, rfl⟩
        rw [hreg] at this
        cases this
    | ok seen1 =>
      simp only []
      obtain ⟨h1, h2⟩ := (register_type_ok_iff seen T N seen1).1 hreg
      subst h2
      have hp : (seen ++ [(T, N)]).Pairwise Apart := by
        rw [List.pairwise_append]
        exact ⟨hseen, List.pairwise_singleton _ _, fun a ha b hb => by
          rw [List.mem_singleton] at hb; subst hb; exact h1 a ha⟩
      rw [ih _ hp]
      simp [List.append_assoc]

theorem compiles_iff {α : Type} [DecidableEq α] (regs : List (α × Int)) :
    compiles regs = true ↔ regs.Pairwise Apart := by
  unfold compiles
  cases h : registerAll [] regs with
  | error e =>
    simp only [Bool.false_eq_true, false_iff]
    intro hp
    have := (registerAll_ok_iff regs [] regs List.Pairwise.nil).2 ⟨by simpa using hp, by simp⟩
    rw [h] at this
    cases this
  | ok out =>
    simp only [true_iff]
    have := ((registerAll_ok_iff regs [] out List.Pairwise.nil).1 h).1
    simpa using this

theorem lookup_mem {α : Type} [DecidableEq α] (regs : List (α × Int)) (T : α) (n : Int)
    (h : regs.lookup T = some n) : (T, n) ∈ regs := by
  induction regs with
  | nil => simp at h
  | cons r regs ih =>
    obtain ⟨T1, n1⟩ := r
    rw [List.lookup_cons] at h
    by_cases hT : T = T1
    · subst hT
      simp at h
      subst h
      exact List.mem_cons_self _ _
    · have : (T == T1) = false := by simpa using hT
      rw [this] at h
      exact List.mem_cons_of_mem _ (ih h)

theorem lookup_injective {α : Type} [DecidableEq α] (regs : List (α × Int))
    (hregs : compiles regs = true) (T1 T2 : α) (n : Int)
    (h1 : regs.lookup T1 = some n) (h2 : regs.lookup T2 = some n) : T1 = T2 := by
  have hp := (compiles_iff regs).1 hregs
  by_contra hne
  have hsymm : Symmetric (Apart : α × Int → α × Int → Prop) :=
    fun r s h => ⟨fun e => h.1 e.symm, fun e => h.2 e.symm⟩
  have := hp.forall hsymm (lookup_mem regs T1 n h1) (lookup_mem regs T2 n h2)
    (fun e => hne (congrArg Prod.fst e))
  exact this.2 rfl

theorem Property.tag_injective (R : PropertyTypes) (hR : compiles R.registrations = true)
    (T1 T2 : R.Registered) (h : Property.typeOf R T1 = Property.typeOf R T2) : T1 = T2 := by
  apply Subtype.ext
  apply lookup_injective R.registrations hR T1.1 T2.1 (Property.typeOf R T1)
  · simp [Property.typeOf, PropertyTypeRegistry]
  · rw [h]; simp [Property.typeOf, PropertyTypeRegistry]

theorem Property.construct_owns {R : PropertyTypes} {K : Type} (h : Heap R) (a : Addr) (key : K)
    (T : R.Registered) (v : R.denote T.1) :
    Property.Owns (Property.construct h a key T v) ⟨T, v⟩ := by
  simp [Property.Owns, Property.construct, Heap.new, Placeholder.type]

theorem Property.set_owns {R : PropertyTypes} {K : Type} (s : Heap R × Property K)
    (b : Placeholder R) (hb : Property.Owns s b) (a : Addr) (T : R.Registered)
    (v : R.denote T.1) :
    ∃ s1, Property.set s.1 a s.2 T v = .returned s1 ∧ Property.Owns s1 ⟨T, v⟩ ∧
      s1.2.m_key = s.2.m_key := by
  refine ⟨((s.1.delete s.2.m_value).new a ⟨T, v⟩, ⟨s.2.m_key, Property.typeOf R T, a⟩), ?_, ?_, rfl⟩
  · simp [Property.set, hb.1]
  · simp [Property.Owns, Heap.new, Placeholder.type]

theorem Property.runSets_owns {R : PropertyTypes} {K : Type} (calls : List (SetCall R))
    (s : Heap R × Property K) (b : Placeholder R) (hb : Property.Owns s b) :
    ∃ s1 b1, Property.runSets s calls = .returned s1 ∧ Property.Owns s1 b1 ∧
      s1.2.m_key = s.2.m_key := by
  induction calls generalizing s b with
  | nil => exact ⟨s, b, rfl, hb, rfl⟩
  | cons c cs ih =>
    obtain ⟨s1, h1, h2, h3⟩ := Property.set_owns s b hb c.a c.T c.value
    obtain ⟨s2, b2, h4, h5, h6⟩ := ih s1 _ h2
    refine ⟨s2, b2, ?_, h5, h6.trans h3⟩
    simp [Property.runSets, h1, h4]

theorem Property.get_of_owns {R : PropertyTypes} {K : Type}
    (s : Heap R × Property K) (b : Placeholder R) (hb : Property.Owns s b) (ndebug : Bool)
    (T : R.Registered) :
    (∀ e : b.T = T, Property.get ndebug s.1 s.2 T = .returned (e ▸ b.m_held)) ∧
    (Property.typeOf R T ≠ b.type →
      Property.get ndebug s.1 s.2 T = if ndebug then .undefined else .typeMismatch) := by
  obtain ⟨h1, h2⟩ := hb
  constructor
  · intro e
    subst e
    simp [Property.get, Property.staticCastGet, h1, h2, Placeholder.type, Placeholder.get]
  · intro hne
    have hT : ¬ b.T = T := fun e => hne (by rw [← e]; rfl)
    cases ndebug <;>
      simp [Property.get, Property.staticCastGet, h1, h2, hne, hT]

/-! ## Algorithm: the state after construction and `set` -/

theorem Algorithm.pairTag_injective (R : AlgorithmTypes) (hR : compiles R.registrations = true)
    (P1 P2 : R.Registered) (h : Algorithm.typeOf R P1 = Algorithm.typeOf R P2) : P1 = P2 := by
  apply Subtype.ext
  apply lookup_injective R.registrations hR P1.1 P2.1 (Algorithm.typeOf R P1)
  · simp [Algorithm.typeOf, AlgorithmTypeRegistry]
  · rw [h]; simp [Algorithm.typeOf, AlgorithmTypeRegistry]

theorem Algorithm.runSets_append {R : AlgorithmTypes} (calls : List (AlgorithmSetCall R))
    (a : Algorithm R) (c : AlgorithmSetCall R) :
    Algorithm.runSets a (calls ++ [c]) = Algorithm.construct c.P c.algorithm := by
  induction calls generalizing a with
  | nil => rfl
  | cons d ds ih => exact ih _

theorem Algorithm.runSets_type {R : AlgorithmTypes} (calls : List (AlgorithmSetCall R))
    (a : Algorithm R) (h : a.m_type = a.m_algorithm.type) :
    (Algorithm.runSets a calls).m_type = (Algorithm.runSets a calls).m_algorithm.type := by
  induction calls generalizing a with
  | nil => exact h
  | cons d ds ih => exact ih _ rfl

theorem Algorithm.call_construct {R : AlgorithmTypes} (ndebug : Bool) (P : R.Registered)
    (f : R.function_type P.1) :
    (∀ x, Algorithm.call ndebug (Algorithm.construct P f) P x = .returned (f x)) ∧
    (∀ (P2 : R.Registered) (x : R.denote P2.1.typeA),
      Algorithm.typeOf R P2 ≠ Algorithm.typeOf R P →
      Algorithm.call ndebug (Algorithm.construct P f) P2 x =
        if ndebug then .undefined else .typeMismatch) := by
  constructor
  · intro x
    simp [Algorithm.call, Algorithm.construct, Algorithm.staticCastCall,
      AlgorithmPlaceholder.call]
  · intro P2 x hne
    have hP : ¬ P2 = P := fun e => hne (by rw [e])
    cases ndebug <;>
      simp [Algorithm.call, Algorithm.construct, Algorithm.staticCastCall, hne, hP]

/-! ## Property: sequences of `set` and `get` -/

theorem Property.run_owns {R : PropertyTypes} {K : Type} (ndebug : Bool)
    (calls : List (PropertyCall R)) (s : Heap R × Property K) (b : Placeholder R)
    (hb : Property.Owns s b) :
    (∀ s1, Property.run ndebug s calls = .returned s1 →
      (∃ b1, Property.Owns s1 b1) ∧ s1.2.m_key = s.2.m_key) ∧
    (compiles R.registrations = true → ndebug = false →
      Property.run ndebug s calls ≠ .undefined) := by
  induction calls generalizing s b with
  | nil =>
    refine ⟨fun s1 h => ?_, fun _ _ h => by simp [Property.run] at h⟩
    simp only [Property.run, Outcome.returned.injEq] at h
    subst h
    exact ⟨⟨b, hb⟩, rfl⟩
  | cons c cs ih =>
    cases c with
    | set c =>
      obtain ⟨s2, h1, h2, h3⟩ := Property.set_owns s b hb c.a c.T c.value
      have hrun : Property.run ndebug s (.set c :: cs) = Property.run ndebug s2 cs := by
        simp [Property.run, h1]
      rw [hrun]
      obtain ⟨ih1, ih2⟩ := ih s2 _ h2
      exact ⟨fun s1 h => ⟨(ih1 s1 h).1, (ih1 s1 h).2.trans h3⟩, ih2⟩
    | get T =>
      obtain ⟨ih1, ih2⟩ := ih s b hb
      by_cases hT : Property.typeOf R T = b.type
      · cases hg : Property.get ndebug s.1 s.2 T with
        | returned v =>
          have hrun : Property.run ndebug s (.get T :: cs) = Property.run ndebug s cs := by
            simp [Property.run, hg]
          rw [hrun]
          exact ⟨ih1, ih2⟩
        | typeMismatch =>
          have hrun : Property.run ndebug s (.get T :: cs) = .typeMismatch := by
            simp [Property.run, hg]
          rw [hrun]
          exact ⟨fun s1 h => (by cases h), fun _ _ h => (by cases h)⟩
        | undefined =>
          have hrun : Property.run ndebug s (.get T :: cs) = .undefined := by
            simp [Property.run, hg]
          rw [hrun]
          refine ⟨fun s1 h => (by cases h), fun hR _ _ => ?_⟩
          have e : b.T = T := (Property.tag_injective R hR T b.T hT).symm
          rw [(Property.get_of_owns s b hb ndebug T).1 e] at hg
          cases hg
      · have hg := (Property.get_of_owns s b hb ndebug T).2 hT
        cases ndebug with
        | false =>
          have hrun : Property.run false s (.get T :: cs) = .typeMismatch := by
            simp [Property.run, hg]
          rw [hrun]
          exact ⟨fun s1 h => (by cases h), fun _ _ h => (by cases h)⟩
        | true =>
          have hrun : Property.run true s (.get T :: cs) = .undefined := by
            simp [Property.run, hg]
          rw [hrun]
          exact ⟨fun s1 h => (by cases h), fun _ h => (by cases h)⟩

theorem Property.run_sets {R : PropertyTypes} {K : Type} (ndebug : Bool)
    (calls : List (SetCall R)) (s : Heap R × Property K) :
    Property.run ndebug s (calls.map PropertyCall.set) = Property.runSets s calls := by
  induction calls generalizing s with
  | nil => rfl
  | cons c cs ih =>
    simp only [List.map_cons, Property.run, Property.runSets]
    cases Property.set s.1 c.a s.2 c.T c.value with
    | returned s1 => exact ih s1
    | typeMismatch => rfl
    | undefined => rfl

/-! ## Property: the box after `set` calls -/

theorem Property.heldAfter_append {R : PropertyTypes} (b : Placeholder R)
    (calls : List (SetCall R)) (c : SetCall R) :
    Property.heldAfter b (calls ++ [c]) = ⟨c.T, c.value⟩ := by
  simp [Property.heldAfter, List.foldl_append]

theorem Property.runSets_held {R : PropertyTypes} {K : Type} (calls : List (SetCall R))
    (s : Heap R × Property K) (b : Placeholder R) (hb : Property.Owns s b) :
    ∃ s1, Property.runSets s calls = .returned s1 ∧
      Property.Owns s1 (Property.heldAfter b calls) ∧ s1.2.m_key = s.2.m_key := by
  induction calls generalizing s b with
  | nil => exact ⟨s, rfl, hb, rfl⟩
  | cons c cs ih =>
    obtain ⟨s1, h1, h2, h3⟩ := Property.set_owns s b hb c.a c.T c.value
    obtain ⟨s2, h4, h5, h6⟩ := ih s1 _ h2
    refine ⟨s2, ?_, h5, h6.trans h3⟩
    simp [Property.runSets, h1, h4]

theorem Property.get_congr_owns {R : PropertyTypes} {K : Type} (s s1 : Heap R × Property K)
    (b : Placeholder R) (hs : Property.Owns s b) (hs1 : Property.Owns s1 b) (ndebug : Bool)
    (T : R.Registered) :
    Property.get ndebug s.1 s.2 T = Property.get ndebug s1.1 s1.2 T := by
  unfold Property.get Property.staticCastGet
  rw [hs.1, hs.2, hs1.1, hs1.2]

/-! ## Algorithm on the free store: owners -/

theorem AlgorithmRef.construct_holds {R : AlgorithmTypes} (h : SharedHeap R) (a : Addr)
    (P : R.Registered) (f : R.function_type P.1) :
    AlgorithmRef.Holds (AlgorithmRef.construct h a P f).1 (AlgorithmRef.construct h a P f).2
      P f := by
  refine ⟨⟨0, ?_⟩, rfl⟩
  simp [AlgorithmRef.construct, SharedHeap.make]

theorem AlgorithmRef.call_of_holds {R : AlgorithmTypes} (h : SharedHeap R) (x : AlgorithmRef)
    (P : R.Registered) (f : R.function_type P.1) (hx : AlgorithmRef.Holds h x P f)
    (ndebug : Bool) :
    (∀ arg, AlgorithmRef.call ndebug h x P arg = .returned (f arg)) ∧
    (∀ (P2 : R.Registered) (arg : R.denote P2.1.typeA),
      Algorithm.typeOf R P2 ≠ Algorithm.typeOf R P →
      AlgorithmRef.call ndebug h x P2 arg = if ndebug then .undefined else .typeMismatch) := by
  obtain ⟨⟨n, h1⟩, h2⟩ := hx
  constructor
  · intro arg
    simp [AlgorithmRef.call, h1, h2, Algorithm.staticCastCall, AlgorithmPlaceholder.call]
  · intro P2 arg hne
    have hP : ¬ P2 = P := fun e => hne (by rw [e])
    cases ndebug <;>
      simp [AlgorithmRef.call, h1, h2, Algorithm.staticCastCall, hne, hP]

theorem AlgorithmRef.view_of_holds {R : AlgorithmTypes} (h : SharedHeap R) (x : AlgorithmRef)
    (P : R.Registered) (f : R.function_type P.1) (hx : AlgorithmRef.Holds h x P f) :
    AlgorithmRef.view h x = some (Algorithm.construct P f) := by
  obtain ⟨⟨n, h1⟩, h2⟩ := hx
  simp [AlgorithmRef.view, h1, h2, Algorithm.construct]

theorem AlgorithmRef.call_view {R : AlgorithmTypes} (h : SharedHeap R) (x : AlgorithmRef)
    (a : Algorithm R) (hv : AlgorithmRef.view h x = some a) (ndebug : Bool) (P : R.Registered)
    (arg : R.denote P.1.typeA) :
    AlgorithmRef.call ndebug h x P arg = Algorithm.call ndebug a P arg := by
  unfold AlgorithmRef.view at hv
  cases hc : h x.m_algorithm with
  | none => rw [hc] at hv; cases hv
  | some c =>
    rw [hc] at hv
    injection hv with hv
    subst hv
    simp [AlgorithmRef.call, Algorithm.call, hc]

theorem AlgorithmRef.copy_holds {R : AlgorithmTypes} (h : SharedHeap R) (x : AlgorithmRef)
    (P : R.Registered) (f : R.function_type P.1) (hx : AlgorithmRef.Holds h x P f) :
    ∃ s, AlgorithmRef.copy h x = .returned s ∧ s.2 = x ∧
      (∃ n, s.1 x.m_algorithm = some ⟨⟨P, f⟩, n + 2⟩) ∧
      ∀ p, p ≠ x.m_algorithm → s.1 p = h p := by
  obtain ⟨⟨n, h1⟩, h2⟩ := hx
  refine ⟨(Function.update h x.m_algorithm (some ⟨⟨P, f⟩, n + 2⟩), x), ?_, rfl, ⟨n, ?_⟩, ?_⟩
  · simp [AlgorithmRef.copy, SharedHeap.acquire, h1]
  · simp
  · intro p hp
    simp [Function.update, hp]

theorem AlgorithmRef.set_holds {R : AlgorithmTypes} (h : SharedHeap R) (x : AlgorithmRef)
    (a : Addr) (c : SharedCell R) (hx : h x.m_algorithm = some c) (ha : h a = none)
    (P : R.Registered) (f : R.function_type P.1) :
    ∃ s, AlgorithmRef.set h a x P f = .returned s ∧ AlgorithmRef.Holds s.1 s.2 P f ∧
      (s.1 x.m_algorithm =
        if c.use_count ≤ 1 then none else some ⟨c.object, c.use_count - 1⟩) ∧
      ∀ p, p ≠ x.m_algorithm → p ≠ a → s.1 p = h p := by
  have hne : x.m_algorithm ≠ a := fun e => by rw [e, ha] at hx; cases hx
  have hne2 : a ≠ x.m_algorithm := fun e => hne e.symm
  have h1 : (h.make a ⟨P, f⟩) x.m_algorithm = some c := by
    simp [SharedHeap.make, Function.update, hne, hx]
  by_cases hc : c.use_count ≤ 1
  · refine ⟨(Function.update (h.make a ⟨P, f⟩) x.m_algorithm none,
      ⟨Algorithm.typeOf R P, a⟩), ?_, ⟨⟨0, ?_⟩, rfl⟩, ?_, ?_⟩
    · simp [AlgorithmRef.set, SharedHeap.release, h1, hc]
    · simp [SharedHeap.make, Function.update, hne2]
    · simp [hc]
    · intro p hp hpa
      simp [SharedHeap.make, Function.update, hp, hpa]
  · refine ⟨(Function.update (h.make a ⟨P, f⟩) x.m_algorithm
      (some ⟨c.object, c.use_count - 1⟩), ⟨Algorithm.typeOf R P, a⟩), ?_, ⟨⟨0, ?_⟩, rfl⟩, ?_, ?_⟩
    · simp [AlgorithmRef.set, SharedHeap.release, h1, hc]
    · simp [SharedHeap.make, Function.update, hne2]
    · simp [hc]
    · intro p hp hpa
      simp [SharedHeap.make, Function.update, hp, hpa]

/-! ## Algorithm on the free store: a call on a target that keeps state -/

theorem Stateful.call_of_cell {R : AlgorithmTypes} {S : Type} (h : StatefulHeap R S)
    (x : AlgorithmRef) (P : R.Registered)
    (m_held : BoostFunction S (R.denote P.1.typeA) (R.denote P.1.typeB)) (n : Nat)
    (hcell : h x.m_algorithm = some ⟨⟨P, m_held⟩, n⟩) (htype : x.m_type = Algorithm.typeOf R P)
    (ndebug : Bool) (arg : R.denote P.1.typeA) :
    Stateful.call ndebug h x P arg = .returned ((m_held.call arg).1,
      Function.update h x.m_algorithm (some ⟨⟨P, (m_held.call arg).2⟩, n⟩)) := by
  simp [Stateful.call, hcell, htype, Stateful.staticCastCall, StatefulHolder.call]

theorem Stateful.call_ofShared {R : AlgorithmTypes} (h : SharedHeap R) (x : AlgorithmRef)
    (P : R.Registered) (f : R.function_type P.1) (hx : AlgorithmRef.Holds h x P f)
    (ndebug : Bool) (arg : R.denote P.1.typeA) :
    AlgorithmRef.call ndebug h x P arg = .returned (f arg) ∧
    Stateful.call ndebug (StatefulHeap.ofShared h) x P arg
      = .returned (.value (f arg), StatefulHeap.ofShared h) := by
  refine ⟨(AlgorithmRef.call_of_holds h x P f hx ndebug).1 arg, ?_⟩
  obtain ⟨⟨n, h1⟩, h2⟩ := hx
  have hcell : StatefulHeap.ofShared h x.m_algorithm
      = some ⟨⟨P, BoostFunction.ofFunction () f⟩, n + 1⟩ := by
    simp [StatefulHeap.ofShared, h1]
  rw [Stateful.call_of_cell _ x P _ _ hcell h2 ndebug arg]
  have hup : Function.update (StatefulHeap.ofShared h) x.m_algorithm
      (some ⟨⟨P, ((BoostFunction.ofFunction () f).call arg).2⟩, n + 1⟩)
      = StatefulHeap.ofShared h := by
    have hsame : ((BoostFunction.ofFunction () f).call arg).2
        = BoostFunction.ofFunction () f := rfl
    rw [hsame, ← hcell]
    exact Function.update_eq_self _ _
  rw [hup]
  rfl

/-! ## Property: reading -/

/-- C1 (amended): in every state reached from construction by `set` calls the
pointer is live, and for every registered `T`, `get<T>()` returns a value exactly
when `type<T>()` is the tag of the held box, the value being the payload of the
box at its own type; when the tags differ the call dies on the assertion in a
build without `NDEBUG`, and with `NDEBUG` the cast is made unchecked. -/
theorem Property.get_checks_tag (R : PropertyTypes) (hR : compiles R.registrations = true)
    {K : Type} (h0 : Heap R) (a0 : Addr) (key : K) (T0 : R.Registered) (v0 : R.denote T0.1)
    (calls : List (SetCall R)) :
    ∃ s b, Property.runSets (Property.construct h0 a0 key T0 v0) calls = .returned s ∧
      s.1 s.2.m_value = some b ∧
      ∀ (ndebug : Bool) (T : R.Registered),
        ((∃ v, Property.get ndebug s.1 s.2 T = .returned v) ↔ Property.typeOf R T = b.type) ∧
        (Property.typeOf R T = b.type →
          ∃ e : b.T = T, Property.get ndebug s.1 s.2 T = .returned (e ▸ b.m_held)) ∧
        (Property.typeOf R T ≠ b.type →
          Property.get ndebug s.1 s.2 T = if ndebug then .undefined else .typeMismatch) := by
  obtain ⟨s, b, h1, h2, -⟩ :=
    Property.runSets_owns calls _ _ (Property.construct_owns h0 a0 key T0 v0)
  refine ⟨s, b, h1, h2.1, fun ndebug T => ?_⟩
  have hget := Property.get_of_owns s b h2 ndebug T
  have heq : Property.typeOf R T = b.type → b.T = T := fun h =>
    (Property.tag_injective R hR T b.T h).symm
  refine ⟨⟨?_, fun h => ⟨_, hget.1 (heq h)⟩⟩, fun h => ⟨heq h, hget.1 (heq h)⟩, hget.2⟩
  rintro ⟨v, hv⟩
  by_contra hne
  rw [hget.2 hne] at hv
  cases ndebug <;> simp at hv

/-- C1, witness: the demo property after `set(std::string("WTF?"))`. -/
theorem Property.get_checks_tag_witness :
    compiles demoTypes.registrations = true ∧
    ∃ s b, Property.runSets demoProperty [⟨demoString, "WTF?", 1⟩] = .returned s ∧
      s.1 s.2.m_value = some b ∧
      ∀ (ndebug : Bool) (T : demoTypes.Registered),
        ((∃ v, Property.get ndebug s.1 s.2 T = .returned v) ↔
          Property.typeOf demoTypes T = b.type) ∧
        (Property.typeOf demoTypes T = b.type →
          ∃ e : b.T = T, Property.get ndebug s.1 s.2 T = .returned (e ▸ b.m_held)) ∧
        (Property.typeOf demoTypes T ≠ b.type →
          Property.get ndebug s.1 s.2 T = if ndebug then .undefined else .typeMismatch) :=
  ⟨by decide, Property.get_checks_tag demoTypes (by decide) (emptyHeap demoTypes) 0
    "myProperty" demoInt (10 : Int) [⟨demoString, "WTF?", 1⟩]⟩

/-- C1, counterexample: with `NDEBUG` defined, `get<std::string>()` on the demo
property, whose box holds the `int` 10 and so reports another tag, does not fail
with the type mismatch: the unchecked cast is made. -/
theorem Property.get_unchecked_counterexample :
    demoProperty.1 demoProperty.2.m_value = some ⟨demoInt, (10 : Int)⟩ ∧
    Property.typeOf demoTypes demoString ≠
      Placeholder.type (⟨demoInt, (10 : Int)⟩ : Placeholder demoTypes) ∧
    Property.get true demoProperty.1 demoProperty.2 demoString = .undefined ∧
    Property.get true demoProperty.1 demoProperty.2 demoString ≠ .typeMismatch := by
  have hne : ¬ demoInt = demoString := by decide
  have h : Property.get true demoProperty.1 demoProperty.2 demoString = .undefined := by
    simp [Property.get, Property.staticCastGet, demoProperty, Property.construct, Heap.new, hne]
  refine ⟨by simp [demoProperty, Property.construct, Heap.new], by decide, h, ?_⟩
  rw [h]
  simp

/-- C2: round trip.  For every registered `T`, key and value `v`, `get<T>()` on
`Property(key, v)` returns `v`, in either build mode and wherever `new` placed the
box; and `Property("myProperty", 10).get<int>()` returns 10. -/
theorem Property.construct_get_roundtrip :
    (∀ (R : PropertyTypes) (K : Type) (ndebug : Bool) (h : Heap R) (a : Addr) (key : K)
      (T : R.Registered) (v : R.denote T.1),
      Property.get ndebug (Property.construct h a key T v).1
        (Property.construct h a key T v).2 T = .returned v) ∧
    (∀ ndebug : Bool,
      Property.get ndebug demoProperty.1 demoProperty.2 demoInt = .returned (10 : Int)) := by
  have hgen : ∀ (R : PropertyTypes) (K : Type) (ndebug : Bool) (h : Heap R) (a : Addr) (key : K)
      (T : R.Registered) (v : R.denote T.1),
      Property.get ndebug (Property.construct h a key T v).1
        (Property.construct h a key T v).2 T = .returned v := by
    intro R K ndebug h a key T v
    exact (Property.get_of_owns _ _ (Property.construct_owns h a key T v) ndebug T).1 rfl
  exact ⟨hgen, fun ndebug => hgen demoTypes String ndebug _ 0 "myProperty" demoInt (10 : Int)⟩

/-! ## Property: writing -/

/-- C3 (amended): from every state reached from construction by `set` calls,
holding a box of type `T1`, a call `set<T2>(v2)` with `T2` another registered
type returns, and afterwards `get<T2>()` returns `v2` while `get<T1>()` dies on
the assertion in a build without `NDEBUG`; with `NDEBUG` the cast is made
unchecked. -/
theorem Property.set_changes_type (R : PropertyTypes) (hR : compiles R.registrations = true)
    {K : Type} (h0 : Heap R) (a0 : Addr) (key : K) (T0 : R.Registered) (v0 : R.denote T0.1)
    (calls : List (SetCall R)) :
    ∃ s b, Property.runSets (Property.construct h0 a0 key T0 v0) calls = .returned s ∧
      s.1 s.2.m_value = some b ∧
      ∀ (T2 : R.Registered) (v2 : R.denote T2.1) (a : Addr), T2 ≠ b.T →
        ∃ s1, Property.set s.1 a s.2 T2 v2 = .returned s1 ∧
          ∀ ndebug : Bool,
            Property.get ndebug s1.1 s1.2 T2 = .returned v2 ∧
            Property.get ndebug s1.1 s1.2 b.T =
              if ndebug then .undefined else .typeMismatch := by
  obtain ⟨s, b, h1, h2, -⟩ :=
    Property.runSets_owns calls _ _ (Property.construct_owns h0 a0 key T0 v0)
  refine ⟨s, b, h1, h2.1, fun T2 v2 a hne => ?_⟩
  obtain ⟨s1, h3, h4, -⟩ := Property.set_owns s b h2 a T2 v2
  refine ⟨s1, h3, fun ndebug => ⟨(Property.get_of_owns s1 _ h4 ndebug T2).1 rfl, ?_⟩⟩
  apply (Property.get_of_owns s1 _ h4 ndebug b.T).2
  intro h
  exact hne (Property.tag_injective R hR b.T T2 h).symm

/-- C3, witness: the demo property, on which any `set` to another type can follow. -/
theorem Property.set_changes_type_witness :
    compiles demoTypes.registrations = true ∧
    ∃ s b, Property.runSets demoProperty [] = .returned s ∧
      s.1 s.2.m_value = some b ∧
      ∀ (T2 : demoTypes.Registered) (v2 : demoTypes.denote T2.1) (a : Addr), T2 ≠ b.T →
        ∃ s1, Property.set s.1 a s.2 T2 v2 = .returned s1 ∧
          ∀ ndebug : Bool,
            Property.get ndebug s1.1 s1.2 T2 = .returned v2 ∧
            Property.get ndebug s1.1 s1.2 b.T =
              if ndebug then .undefined else .typeMismatch :=
  ⟨by decide, Property.set_changes_type demoTypes (by decide) (emptyHeap demoTypes) 0
    "myProperty" demoInt (10 : Int) []⟩

/-- C3, counterexample: with `NDEBUG` defined, after
`Property("myProperty", 10).set(std::string("WTF?"))` the call `get<std::string>()`
returns `"WTF?"` but `get<int>()` does not fail with the type mismatch. -/
theorem Property.set_then_get_unchecked_counterexample :
    ∃ s1, Property.set demoProperty.1 1 demoProperty.2 demoString "WTF?" = .returned s1 ∧
      Property.get true s1.1 s1.2 demoString = .returned "WTF?" ∧
      Property.get true s1.1 s1.2 demoInt = .undefined ∧
      Property.get true s1.1 s1.2 demoInt ≠ .typeMismatch := by
  have hne : ¬ demoString = demoInt := by decide
  refine ⟨(((demoProperty.1).delete demoProperty.2.m_value).new 1 ⟨demoString, "WTF?"⟩,
    ⟨demoProperty.2.m_key, Property.typeOf demoTypes demoString, 1⟩), ?_, ?_, ?_, ?_⟩
  · simp [Property.set, demoProperty, Property.construct, Heap.new]
  · simp [Property.get, Property.staticCastGet, Heap.new, Placeholder.get]
  · simp [Property.get, Property.staticCastGet, Heap.new, hne]
  · simp [Property.get, Property.staticCastGet, Heap.new, hne]

/-- C4, the code at the failing input: a copy of the demo property has the same
`m_value` as the original, no `clone` being made.  Before the copy the original
reports the tag of `int` and `get<int>()` returns 10; after
`set(std::string("WTF?"))` on the copy, wherever `new` places the new box, the
original still reports the tag of `int` but its `get<int>()` has undefined
behaviour in either build mode.  Destroying the copy and then the original
deletes the one box twice. -/
theorem Property.copy_shares_box :
    (Property.copy demoProperty.2).m_value = demoProperty.2.m_value ∧
    Property.type demoProperty.2 = Property.typeOf demoTypes demoInt ∧
    (∀ ndebug : Bool,
      Property.get ndebug demoProperty.1 demoProperty.2 demoInt = .returned (10 : Int)) ∧
    (∀ a : Addr, ∃ s1,
      Property.set demoProperty.1 a (Property.copy demoProperty.2) demoString "WTF?"
        = .returned s1 ∧
      ∀ ndebug : Bool, Property.get ndebug s1.1 demoProperty.2 demoInt = .undefined) ∧
    (∃ h1, Property.destroy demoProperty.1 (Property.copy demoProperty.2) = .returned h1 ∧
      Property.destroy h1 demoProperty.2 = .undefined) := by
  have hne : ¬ demoString = demoInt := by decide
  refine ⟨rfl, rfl, fun ndebug =>
    (Property.get_of_owns _ _ (Property.construct_owns _ 0 "myProperty" demoInt (10 : Int))
      ndebug demoInt).1 rfl, fun a => ?_, ?_⟩
  · refine ⟨(((demoProperty.1).delete demoProperty.2.m_value).new a ⟨demoString, "WTF?"⟩,
      ⟨demoProperty.2.m_key, Property.typeOf demoTypes demoString, a⟩), ?_, fun ndebug => ?_⟩
    · simp [Property.set, Property.copy, demoProperty, Property.construct, Heap.new]
    · by_cases ha : a = 0
      · subst ha
        cases ndebug <;>
          simp [Property.get, Property.staticCastGet, Heap.new, Heap.delete, demoProperty,
            Property.construct, hne]
      · have ha2 : ¬ 0 = a := fun h => ha h.symm
        cases ndebug <;>
          simp [Property.get, Property.staticCastGet, Heap.new, Heap.delete, demoProperty,
            Property.construct, Function.update, ha2]
  · refine ⟨(demoProperty.1).delete demoProperty.2.m_value, ?_, ?_⟩
    · simp [Property.destroy, Property.copy, demoProperty, Property.construct, Heap.new]
    · simp [Property.destroy, Heap.delete]

/-! ## Algorithm -/

/-- C5 (amended): when the current callable of an `Algorithm`, given at
construction or by the latest `set<Arg, Res>`, is `f`, the call
`call<Arg, Res>(x)` returns `f(x)`; a call `call<Arg2, Res2>` for a registered
pair whose tag differs from that of the stored callable dies on the assertion in
a build without `NDEBUG`, and with `NDEBUG` the cast is made unchecked. -/
theorem Algorithm.call_dispatches (R : AlgorithmTypes) (P : R.Registered)
    (f : R.function_type P.1) (a : Algorithm R)
    (ha : a = Algorithm.construct P f ∨
      ∃ P0 f0 calls, a = Algorithm.runSets (Algorithm.construct P0 f0) (calls ++ [⟨P, f⟩]))
    (ndebug : Bool) :
    a.m_algorithm = ⟨P, f⟩ ∧
    (∀ x, Algorithm.call ndebug a P x = .returned (f x)) ∧
    (∀ (P2 : R.Registered) (x : R.denote P2.1.typeA),
      Algorithm.typeOf R P2 ≠ a.m_algorithm.type →
      Algorithm.call ndebug a P2 x = if ndebug then .undefined else .typeMismatch) := by
  have h : a = Algorithm.construct P f := by
    rcases ha with h | ⟨P0, f0, calls, h⟩
    · exact h
    · rw [h, Algorithm.runSets_append]
  subst h
  exact ⟨rfl, Algorithm.call_construct ndebug P f⟩

/-- C5, witness: an `Algorithm` built from a `double` function and then given
the `int` function `x + 1` by `set<int, int>`. -/
theorem Algorithm.call_dispatches_witness :
    (∀ x : Int, Algorithm.call false
      (Algorithm.runSets (Algorithm.construct algoDoubleDouble (fun x => x))
        ([] ++ [⟨algoIntInt, fun x : Int => x + 1⟩])) algoIntInt x = .returned (x + 1)) ∧
    (∀ (P2 : algorithmTypes.Registered) (x : algorithmTypes.denote P2.1.typeA),
      Algorithm.typeOf algorithmTypes P2 ≠ (Algorithm.runSets
        (Algorithm.construct algoDoubleDouble (fun x => x))
        ([] ++ [⟨algoIntInt, fun x : Int => x + 1⟩])).m_algorithm.type →
      Algorithm.call false (Algorithm.runSets
        (Algorithm.construct algoDoubleDouble (fun x => x))
        ([] ++ [⟨algoIntInt, fun x : Int => x + 1⟩])) P2 x = .typeMismatch) :=
  (Algorithm.call_dispatches algorithmTypes algoIntInt (fun x : Int => x + 1) _
    (Or.inr ⟨algoDoubleDouble, fun x => x, [], rfl⟩) false).2

/-- C5, counterexample: with `NDEBUG` defined, `call<double, double>` on an
`Algorithm` that stores an `int` function, whose pair has another tag, does not
fail with the type mismatch. -/
theorem Algorithm.call_unchecked_counterexample :
    Algorithm.typeOf algorithmTypes algoDoubleDouble ≠
      (Algorithm.construct algoIntInt (fun x : Int => x + 1)).m_algorithm.type ∧
    Algorithm.call true (Algorithm.construct algoIntInt (fun x : Int => x + 1))
      algoDoubleDouble (⟨0⟩ : Floating) = .undefined ∧
    Algorithm.call true (Algorithm.construct algoIntInt (fun x : Int => x + 1))
      algoDoubleDouble (⟨0⟩ : Floating) ≠ .typeMismatch := by
  have hne : Algorithm.typeOf algorithmTypes algoDoubleDouble ≠
      Algorithm.typeOf algorithmTypes algoIntInt := by decide
  have h := (Algorithm.call_construct true algoIntInt (fun x : Int => x + 1)).2
    algoDoubleDouble (⟨0⟩ : Floating) hne
  refine ⟨hne, h, ?_⟩
  rw [h]
  simp

/-! ## The registries of the sources -/

/-- C6: the property registry of the demo is `int -> 0`, `double -> 1`,
`std::string -> 2` and nothing else, the algorithm registry is
`(int, int) -> 0`, `(double, double) -> 1` and nothing else, and in each of them
two distinct registered types (pairs) have different tags. -/
theorem registration_bijection :
    (Property.typeOf demoTypes demoInt = 0 ∧ Property.typeOf demoTypes demoDouble = 1 ∧
      Property.typeOf demoTypes demoString = 2) ∧
    (∀ T : demoTypes.Registered, T = demoInt ∨ T = demoDouble ∨ T = demoString) ∧
    (∀ T1 T2 : demoTypes.Registered, T1 ≠ T2 →
      Property.typeOf demoTypes T1 ≠ Property.typeOf demoTypes T2) ∧
    (Algorithm.typeOf algorithmTypes algoIntInt = 0 ∧
      Algorithm.typeOf algorithmTypes algoDoubleDouble = 1) ∧
    (∀ P : algorithmTypes.Registered, P = algoIntInt ∨ P = algoDoubleDouble) ∧
    (∀ P1 P2 : algorithmTypes.Registered, P1 ≠ P2 →
      Algorithm.typeOf algorithmTypes P1 ≠ Algorithm.typeOf algorithmTypes P2) := by
  refine ⟨⟨rfl, rfl, rfl⟩, ?_, ?_, ⟨rfl, rfl⟩, ?_, ?_⟩
  · rintro ⟨T, hT⟩
    cases T
    · exact Or.inl rfl
    · exact Or.inr (Or.inl rfl)
    · exact Or.inr (Or.inr rfl)
    · exact absurd hT (by decide)
  · intro T1 T2 hne h
    exact hne (Property.tag_injective demoTypes (by decide) T1 T2 h)
  · rintro ⟨⟨A, B⟩, hP⟩
    cases A <;> cases B <;>
      first
        | exact Or.inl rfl
        | exact Or.inr rfl
        | exact absurd hP (by decide)
  · intro P1 P2 hne h
    exact hne (Algorithm.pairTag_injective algorithmTypes (by decide) P1 P2 h)

/-- C6, witness: `int` and `std::string`, and `(int, int)` and `(double, double)`. -/
theorem registration_bijection_witness :
    demoInt ≠ demoString ∧
    Property.typeOf demoTypes demoInt ≠ Property.typeOf demoTypes demoString ∧
    algoIntInt ≠ algoDoubleDouble ∧
    Algorithm.typeOf algorithmTypes algoIntInt ≠
      Algorithm.typeOf algorithmTypes algoDoubleDouble :=
  ⟨by decide, registration_bijection.2.2.1 demoInt demoString (by decide),
    by decide, registration_bijection.2.2.2.2.2 algoIntInt algoDoubleDouble (by decide)⟩

/-- C7: in a translation unit that compiles, the tag an `Algorithm` reports
after construction is the registry value of the pair `(ArgT, ResT)` of its
callable, whatever the callable; two registered pairs with the same argument type
and different result types, or the same result type and different argument types,
give `Algorithm`s that report different tags. -/
theorem Algorithm.pair_tagging (R : AlgorithmTypes) (hR : compiles R.registrations = true)
    (P1 P2 : R.Registered) (f1 : R.function_type P1.1) (f2 : R.function_type P2.1)
    (h : (P1.1.typeA = P2.1.typeA ∧ P1.1.typeB ≠ P2.1.typeB) ∨
      (P1.1.typeB = P2.1.typeB ∧ P1.1.typeA ≠ P2.1.typeA)) :
    (Algorithm.construct P1 f1).type = AlgorithmTypeRegistry R P1 ∧
    (Algorithm.construct P2 f2).type = AlgorithmTypeRegistry R P2 ∧
    (Algorithm.construct P1 f1).type ≠ (Algorithm.construct P2 f2).type := by
  refine ⟨rfl, rfl, fun e => ?_⟩
  have hP : P1 = P2 := Algorithm.pairTag_injective R hR P1 P2 e
  subst hP
  rcases h with ⟨-, h⟩ | ⟨-, h⟩ <;> exact h rfl

/-- C7, witness: in the client translation unit, an `int -> int` and an
`int -> double` callable. -/
theorem Algorithm.pair_tagging_witness :
    compiles clientAlgorithmTypes.registrations = true ∧
    (Algorithm.construct clientIntInt (fun x : Int => x + 1)).type = 0 ∧
    (Algorithm.construct clientIntDouble (fun _ : Int => (⟨0⟩ : Floating))).type = 2 ∧
    (Algorithm.construct clientIntInt (fun x : Int => x + 1)).type ≠
      (Algorithm.construct clientIntDouble (fun _ : Int => (⟨0⟩ : Floating))).type :=
  ⟨by decide, Algorithm.pair_tagging clientAlgorithmTypes (by decide) clientIntInt
    clientIntDouble (fun x : Int => x + 1) (fun _ : Int => (⟨0⟩ : Floating))
    (Or.inl ⟨rfl, by decide⟩)⟩

/-- C8: after construction from a callable of the pair `(Arg, Res)`, and after
any sequence of `set` calls that ends with `set<Arg, Res>(f)`, `type()` is the
registry value of `(Arg, Res)`, the box holds that callable, and in every state
reached from construction by `set` calls `type()` equals the tag the held box
reports. -/
theorem Algorithm.type_tracks_callable (R : AlgorithmTypes) :
    (∀ (P : R.Registered) (f : R.function_type P.1),
      (Algorithm.construct P f).type = Algorithm.typeOf R P ∧
      (Algorithm.construct P f).m_algorithm = ⟨P, f⟩) ∧
    (∀ (P0 : R.Registered) (f0 : R.function_type P0.1) (calls : List (AlgorithmSetCall R))
      (P : R.Registered) (f : R.function_type P.1),
      (Algorithm.runSets (Algorithm.construct P0 f0) (calls ++ [⟨P, f⟩])).type =
        Algorithm.typeOf R P ∧
      (Algorithm.runSets (Algorithm.construct P0 f0) (calls ++ [⟨P, f⟩])).m_algorithm =
        ⟨P, f⟩) ∧
    (∀ (P0 : R.Registered) (f0 : R.function_type P0.1) (calls : List (AlgorithmSetCall R)),
      (Algorithm.runSets (Algorithm.construct P0 f0) calls).type =
        (Algorithm.runSets (Algorithm.construct P0 f0) calls).m_algorithm.type) := by
  refine ⟨fun P f => ⟨rfl, rfl⟩, fun P0 f0 calls P f => ?_, fun P0 f0 calls => ?_⟩
  · rw [Algorithm.runSets_append]
    exact ⟨rfl, rfl⟩
  · exact Algorithm.runSets_type calls _ rfl

/-! ## Property: the key -/

/-- C9: for a `Property` constructed with key `k`, after every sequence of
`set` and `get` calls that runs to its end `key()` returns `k`; a sequence of
`set` calls always runs to its end, and when the registrations compile, in a
build without `NDEBUG` no sequence has undefined behaviour (it runs to its end
or stops at a failed assertion). -/
theorem Property.key_immutable (R : PropertyTypes) {K : Type} (h0 : Heap R) (a0 : Addr)
    (k : K) (T0 : R.Registered) (v0 : R.denote T0.1) (ndebug : Bool) :
    (∀ (calls : List (PropertyCall R)) (s : Heap R × Property K),
      Property.run ndebug (Property.construct h0 a0 k T0 v0) calls = .returned s →
      s.2.key = k) ∧
    (∀ sets : List (SetCall R), ∃ s,
      Property.run ndebug (Property.construct h0 a0 k T0 v0) (sets.map PropertyCall.set)
        = .returned s ∧ s.2.key = k) ∧
    (compiles R.registrations = true → ∀ calls : List (PropertyCall R),
      Property.run false (Property.construct h0 a0 k T0 v0) calls ≠ .undefined) := by
  have hown := Property.construct_owns h0 a0 k T0 v0
  refine ⟨fun calls s h => ?_, fun sets => ?_, fun hR calls => ?_⟩
  · exact ((Property.run_owns ndebug calls _ _ hown).1 s h).2
  · obtain ⟨s, b, h1, -, h2⟩ := Property.runSets_owns sets _ _ hown
    exact ⟨s, by rw [Property.run_sets, h1], h2⟩
  · exact (Property.run_owns false calls _ _ hown).2 hR rfl

/-- C9, witness: the calls of `main` on the demo property, `get<int>()`,
`set(std::string("WTF?"))`, `get<std::string>()`, run to their end and leave
the key `"myProperty"`. -/
theorem Property.key_immutable_witness :
    compiles demoTypes.registrations = true ∧
    (∃ s, Property.run false demoProperty
        [.get demoInt, .set ⟨demoString, "WTF?", 1⟩, .get demoString] = .returned s ∧
      s.2.key = "myProperty") ∧
    Property.run false demoProperty [.get demoString] ≠ .undefined := by
  have hne : ¬ demoString = demoInt := by decide
  have hrun : Property.run false demoProperty
      [.get demoInt, .set ⟨demoString, "WTF?", 1⟩, .get demoString] = .returned
      (((demoProperty.1).delete demoProperty.2.m_value).new 1 ⟨demoString, "WTF?"⟩,
        ⟨demoProperty.2.m_key, Property.typeOf demoTypes demoString, 1⟩) := by
    simp [Property.run, Property.get, Property.set, Property.staticCastGet, demoProperty,
      Property.construct, Heap.new, Heap.delete, Placeholder.get]
  have hkey := Property.key_immutable demoTypes (emptyHeap demoTypes) 0 "myProperty"
    demoInt (10 : Int) false
  exact ⟨by decide, ⟨_, hrun, hkey.1 _ _ hrun⟩, hkey.2.2 (by decide) _⟩

/-! ## Registration -/

/-- C10 (amended): within a translation unit, a registration of an index that an
earlier registration of the unit binds to another type, or of a type that an
earlier registration of the unit binds to another index, makes the unit fail to
compile; in a unit that compiles, two registrations with one index name one type
and two registrations of one type name one index.  A program builds exactly when
each of its units compiles, so in a program that builds this holds inside each
unit. -/
theorem registration_conflicts_rejected {α : Type} [DecidableEq α] :
    (∀ (pre post : List (α × Int)) (T T1 : α) (N : Int), (T1, N) ∈ pre → T1 ≠ T →
      compiles (pre ++ (T, N) :: post) = false) ∧
    (∀ (pre post : List (α × Int)) (T : α) (N N1 : Int), (T, N1) ∈ pre → N1 ≠ N →
      compiles (pre ++ (T, N) :: post) = false) ∧
    (∀ regs : List (α × Int), compiles regs = true →
      ∀ r ∈ regs, ∀ s ∈ regs, (r.2 = s.2 → r.1 = s.1) ∧ (r.1 = s.1 → r.2 = s.2)) ∧
    (∀ units : List (List (α × Int)),
      (builds units = true ↔ ∀ u ∈ units, compiles u = true) ∧
      (builds units = true → ∀ u ∈ units, ∀ r ∈ u, ∀ s ∈ u,
        (r.2 = s.2 → r.1 = s.1) ∧ (r.1 = s.1 → r.2 = s.2))) := by
  have hc : ∀ regs : List (α × Int), compiles regs = true →
      ∀ r ∈ regs, ∀ s ∈ regs, (r.2 = s.2 → r.1 = s.1) ∧ (r.1 = s.1 → r.2 = s.2) := by
    intro regs h r hr s hs
    have hp := (compiles_iff regs).1 h
    have hsymm : Symmetric (Apart : α × Int → α × Int → Prop) :=
      fun r s h => ⟨fun e => h.1 e.symm, fun e => h.2 e.symm⟩
    by_cases e : r = s
    · subst e
      exact ⟨fun _ => rfl, fun _ => rfl⟩
    · have := hp.forall hsymm hr hs e
      exact ⟨fun h2 => absurd h2 this.2, fun h1 => absurd h1 this.1⟩
  have hb : ∀ units : List (List (α × Int)),
      (builds units = true ↔ ∀ u ∈ units, compiles u = true) := by
    intro units
    simp [builds, List.all_eq_true]
  refine ⟨fun pre post T T1 N hmem hne => ?_, fun pre post T N N1 hmem hne => ?_, hc,
    fun units => ⟨hb units, fun h u hu => hc u ((hb units).1 h u hu)⟩⟩
  · by_contra h
    rw [Bool.not_eq_false] at h
    have := (hc _ h (T1, N) (List.mem_append_left _ hmem) (T, N)
      (List.mem_append_right _ (List.mem_cons_self _ _))).1 rfl
    exact hne this
  · by_contra h
    rw [Bool.not_eq_false] at h
    have := (hc _ h (T, N1) (List.mem_append_left _ hmem) (T, N)
      (List.mem_append_right _ (List.mem_cons_self _ _))).2 rfl
    exact hne this

/-- C10, witness: after the registrations of the demo, `REGISTER_PROPERTY_TYPE(float, 2)`
and `REGISTER_PROPERTY_TYPE(int, 5)` each fail to compile, and the registrations
of the demo, which compile, bind `int` to the one index 0. -/
theorem registration_conflicts_rejected_witness :
    compiles (demoRegistrations ++ (CppType.float, 2) :: []) = false ∧
    compiles (demoRegistrations ++ (CppType.int, 5) :: []) = false ∧
    compiles demoRegistrations = true ∧
    (∀ s ∈ demoRegistrations, CppType.int = s.1 → (0 : Int) = s.2) :=
  ⟨registration_conflicts_rejected.1 demoRegistrations [] CppType.float CppType.string 2
      (by decide) (by decide),
    registration_conflicts_rejected.2.1 demoRegistrations [] CppType.int 5 0
      (by decide) (by decide),
    by decide,
    fun s hs => (registration_conflicts_rejected.2.2.1 demoRegistrations (by decide)
      (CppType.int, 0) (by decide) s hs).2⟩

/-- C10, counterexample: a program of three translation units, the demo and two
that register `float` at 2 and at 3, builds, although index 2 is bound to
`std::string` in one unit and to `float` in another, and `float` is bound to 2 in
one unit and to 3 in another. -/
theorem registration_across_units_counterexample :
    builds [demoRegistrations, floatAtTwoRegistrations, floatAtThreeRegistrations] = true ∧
    (CppType.string, (2 : Int)) ∈ demoRegistrations ∧
    (CppType.float, (2 : Int)) ∈ floatAtTwoRegistrations ∧
    (CppType.float, (3 : Int)) ∈ floatAtThreeRegistrations ∧
    CppType.string ≠ CppType.float ∧ (2 : Int) ≠ 3 := by
  decide

/-! ## Property: the tag and its box -/

/-- C11: in every state reached from construction by `set` calls the pointer is
live and the box is the one of the latest `set` (of the constructor when there
is none); the tag the box reports is the registry value of the type of the
payload it holds, and the tag `type()` returns, the cached `m_type` that
`get<T>` checks against, is the tag the box reports. -/
theorem Property.tag_invariant (R : PropertyTypes) {K : Type} (h0 : Heap R) (a0 : Addr)
    (key : K) (T0 : R.Registered) (v0 : R.denote T0.1) (calls : List (SetCall R)) :
    ∃ s b, Property.runSets (Property.construct h0 a0 key T0 v0) calls = .returned s ∧
      s.1 s.2.m_value = some b ∧
      b = Property.heldAfter ⟨T0, v0⟩ calls ∧
      b.type = PropertyTypeRegistry R b.T ∧
      s.2.type = b.type := by
  obtain ⟨s, h1, h2, -⟩ :=
    Property.runSets_held calls _ _ (Property.construct_owns h0 a0 key T0 v0)
  exact ⟨s, _, h1, h2.1, rfl, rfl, h2.2⟩

/-! ## Clone -/

/-- C12: `clone()` of a live `Holder<T>` with payload `v`, `new` returning a free
address, gives a pointer to another object that is a `Holder<T>` of the same
`T`, reports the same tag and holds `v`, and the original box is as before;
`clone()` of a live `AlgorithmHolder` gives a pointer to another object of the
same pair that reports the same tag and returns on every argument what the
original returns, with one owner, and the original holder is as before. -/
theorem clone_preserves_content :
    (∀ (R : PropertyTypes) (h : Heap R) (a0 a : Addr) (b : Placeholder R),
      h a0 = some b → h a = none →
      (Placeholder.clone h a b).2 ≠ a0 ∧
      (∃ c, (Placeholder.clone h a b).1 (Placeholder.clone h a b).2 = some c ∧
        c.T = b.T ∧ c.type = b.type) ∧
      Property.staticCastGet (Placeholder.clone h a b).1 (Placeholder.clone h a b).2 b.T
        = .returned b.get ∧
      (Placeholder.clone h a b).1 a0 = some b ∧
      Property.staticCastGet (Placeholder.clone h a b).1 a0 b.T = .returned b.get) ∧
    (∀ (R : AlgorithmTypes) (h : SharedHeap R) (a0 a : Addr) (c0 : SharedCell R),
      h a0 = some c0 → h a = none →
      (SharedHeap.clone h a c0.object).2 ≠ a0 ∧
      (∃ c, (SharedHeap.clone h a c0.object).1 (SharedHeap.clone h a c0.object).2 = some c ∧
        c.object.P = c0.object.P ∧ c.object.type = c0.object.type ∧ c.use_count = 1 ∧
        ∀ x, Algorithm.staticCastCall c.object c0.object.P x
          = .returned (c0.object.call x)) ∧
      (SharedHeap.clone h a c0.object).1 a0 = some c0) := by
  constructor
  · intro R h a0 a b h0 ha
    have hne : a ≠ a0 := fun e => by rw [e, h0] at ha; cases ha
    have hne2 : a0 ≠ a := fun e => hne e.symm
    refine ⟨hne, ⟨b, ?_, rfl, rfl⟩, ?_, ?_, ?_⟩
    · simp [Placeholder.clone, Heap.new]
    · simp [Placeholder.clone, Heap.new, Property.staticCastGet, Placeholder.get]
    · simp [Placeholder.clone, Heap.new, Function.update, hne2, h0]
    · simp [Placeholder.clone, Heap.new, Function.update, hne2, h0, Property.staticCastGet]
  · intro R h a0 a c0 h0 ha
    have hne : a ≠ a0 := fun e => by rw [e, h0] at ha; cases ha
    have hne2 : a0 ≠ a := fun e => hne e.symm
    refine ⟨hne, ⟨⟨c0.object, 1⟩, ?_, rfl, rfl, rfl, fun x => ?_⟩, ?_⟩
    · simp [SharedHeap.clone, SharedHeap.make, AlgorithmPlaceholder.clone]
    · simp [Algorithm.staticCastCall]
    · simp [SharedHeap.clone, SharedHeap.make, Function.update, hne2, h0]

/-- C12, witness: a clone at address 1 of the box of the demo property, which
holds the `int` 10 at address 0, and a clone at address 1 of the holder of an
`Algorithm` built from the `int` function `x + 1` at address 0. -/
theorem clone_preserves_content_witness :
    (Placeholder.clone demoProperty.1 1 ⟨demoInt, (10 : Int)⟩).2 ≠ 0 ∧
    Property.staticCastGet (Placeholder.clone demoProperty.1 1 ⟨demoInt, (10 : Int)⟩).1
      (Placeholder.clone demoProperty.1 1 ⟨demoInt, (10 : Int)⟩).2 demoInt
        = .returned (10 : Int) ∧
    (Placeholder.clone demoProperty.1 1 ⟨demoInt, (10 : Int)⟩).1 0
      = some ⟨demoInt, (10 : Int)⟩ ∧
    (SharedHeap.clone
      (AlgorithmRef.construct (emptySharedHeap algorithmTypes) 0 algoIntInt
        (fun x : Int => x + 1)).1 1 ⟨algoIntInt, fun x : Int => x + 1⟩).1 0
      = some ⟨⟨algoIntInt, fun x : Int => x + 1⟩, 1⟩ :=
  have hp := clone_preserves_content.1 demoTypes demoProperty.1 0 1 ⟨demoInt, (10 : Int)⟩
    (by simp [demoProperty, Property.construct, Heap.new])
    (by simp [demoProperty, Property.construct, Heap.new, emptyHeap])
  have ha := clone_preserves_content.2 algorithmTypes
    (AlgorithmRef.construct (emptySharedHeap algorithmTypes) 0 algoIntInt
      (fun x : Int => x + 1)).1 0 1 ⟨⟨algoIntInt, fun x : Int => x + 1⟩, 1⟩
    (by simp [AlgorithmRef.construct, SharedHeap.make])
    (by simp [AlgorithmRef.construct, SharedHeap.make, emptySharedHeap])
  ⟨hp.1, hp.2.2.1, hp.2.2.2.1, ha.2.2⟩

/-! ## Copies of an Algorithm -/

/-- C13: an `Algorithm` just constructed from `f` holds `f`.  When `a` holds
`f : Arg -> Res`, the copy `b` of `a` has the pointer of `a`, and after
`b.set<Arg2, Res2>(g)`, `new` returning a free address, `a` still holds `f`:
`a.type()` is the tag of `(Arg, Res)` and `a.call<Arg, Res>(x)` returns `f(x)`
for every `x`, in either build mode, while `b` holds `g`. -/
theorem AlgorithmRef.copy_then_set_independent (R : AlgorithmTypes) (h : SharedHeap R)
    (a : AlgorithmRef) (P : R.Registered) (f : R.function_type P.1)
    (ha : AlgorithmRef.Holds h a P f) (a1 : Addr) (hfree : h a1 = none)
    (P2 : R.Registered) (g : R.function_type P2.1) :
    (∀ h0 a0, AlgorithmRef.Holds (AlgorithmRef.construct h0 a0 P f).1
      (AlgorithmRef.construct h0 a0 P f).2 P f) ∧
    ∃ hb b s, AlgorithmRef.copy h a = .returned (hb, b) ∧
      b.m_algorithm = a.m_algorithm ∧
      AlgorithmRef.set hb a1 b P2 g = .returned s ∧
      AlgorithmRef.Holds s.1 a P f ∧
      a.type = Algorithm.typeOf R P ∧
      AlgorithmRef.view s.1 a = some (Algorithm.construct P f) ∧
      (∀ (ndebug : Bool) (x : R.denote P.1.typeA),
        AlgorithmRef.call ndebug s.1 a P x = .returned (f x)) ∧
      AlgorithmRef.Holds s.1 s.2 P2 g := by
  refine ⟨fun h0 a0 => AlgorithmRef.construct_holds h0 a0 P f, ?_⟩
  obtain ⟨sb, h1, h2, ⟨n, h3⟩, h4⟩ := AlgorithmRef.copy_holds h a P f ha
  have hne : a1 ≠ a.m_algorithm := fun e => by
    obtain ⟨⟨m, hm⟩, -⟩ := ha
    rw [e, hm] at hfree
    cases hfree
  have hfree1 : sb.1 a1 = none := by rw [h4 a1 hne]; exact hfree
  have h3b : sb.1 sb.2.m_algorithm = some ⟨⟨P, f⟩, n + 2⟩ := by rw [h2]; exact h3
  obtain ⟨s, h5, h6, h7, -⟩ := AlgorithmRef.set_holds sb.1 sb.2 a1 _ h3b hfree1 P2 g
  have hold : AlgorithmRef.Holds s.1 a P f := by
    refine ⟨⟨n, ?_⟩, ha.2⟩
    rw [h2] at h7
    rw [h7]
    simp
  refine ⟨sb.1, sb.2, s, h1, by rw [h2], h5, hold, ha.2,
    AlgorithmRef.view_of_holds _ _ _ _ hold,
    fun ndebug x => (AlgorithmRef.call_of_holds _ _ _ _ hold ndebug).1 x, h6⟩

/-- C13, witness: `a` built from the `int` function `x + 1` at address 0, its
copy given the `double` identity by `set<double, double>` at address 1. -/
theorem AlgorithmRef.copy_then_set_independent_witness :
    ∃ hb b s,
      AlgorithmRef.copy (AlgorithmRef.construct (emptySharedHeap algorithmTypes) 0 algoIntInt
        (fun x : Int => x + 1)).1 ⟨Algorithm.typeOf algorithmTypes algoIntInt, 0⟩
        = .returned (hb, b) ∧
      b.m_algorithm = 0 ∧
      AlgorithmRef.set hb 1 b algoDoubleDouble (fun x : Floating => x) = .returned s ∧
      (∀ (ndebug : Bool) (x : Int),
        AlgorithmRef.call ndebug s.1 ⟨Algorithm.typeOf algorithmTypes algoIntInt, 0⟩
          algoIntInt x = .returned (x + 1)) ∧
      AlgorithmRef.Holds s.1 s.2 algoDoubleDouble (fun x : Floating => x) :=
  have hw := (AlgorithmRef.copy_then_set_independent algorithmTypes
    (AlgorithmRef.construct (emptySharedHeap algorithmTypes) 0 algoIntInt
      (fun x : Int => x + 1)).1 ⟨Algorithm.typeOf algorithmTypes algoIntInt, 0⟩ algoIntInt
    (fun x : Int => x + 1)
    (AlgorithmRef.construct_holds (emptySharedHeap algorithmTypes) 0 algoIntInt
      (fun x : Int => x + 1))
    1 (by simp [AlgorithmRef.construct, SharedHeap.make, emptySharedHeap])
    algoDoubleDouble (fun x : Floating => x)).2
  let ⟨hb, b, s, h1, h2, h3, _, _, _, h7, h8⟩ := hw
  ⟨hb, b, s, h1, h2, h3, h7, h8⟩

/-! ## Reads -/

/-- C15: from every state reached from construction by `set` calls,
`set<T1>(v1)` followed by `set<T2>(v2)`, and `set<T2>(v2)` alone, both return,
wherever `new` places the boxes, and the two states have the same `key()`, the
same `type()`, which is the tag of `T2`, and the same result of `get<T>()` for
every registered `T` in either build mode, `get<T2>()` returning `v2`. -/
theorem Property.last_set_wins (R : PropertyTypes) {K : Type} (h0 : Heap R) (a0 : Addr)
    (key : K) (T0 : R.Registered) (v0 : R.denote T0.1) (calls : List (SetCall R))
    (T1 : R.Registered) (v1 : R.denote T1.1) (a1 : Addr)
    (T2 : R.Registered) (v2 : R.denote T2.1) (a2 a3 : Addr) :
    ∃ s12 s2,
      Property.runSets (Property.construct h0 a0 key T0 v0)
        (calls ++ [⟨T1, v1, a1⟩, ⟨T2, v2, a2⟩]) = .returned s12 ∧
      Property.runSets (Property.construct h0 a0 key T0 v0)
        (calls ++ [⟨T2, v2, a3⟩]) = .returned s2 ∧
      s12.2.key = s2.2.key ∧
      s12.2.type = s2.2.type ∧
      (∀ (ndebug : Bool) (T : R.Registered),
        Property.get ndebug s12.1 s12.2 T = Property.get ndebug s2.1 s2.2 T) ∧
      s2.2.key = key ∧
      s2.2.type = Property.typeOf R T2 ∧
      ∀ ndebug : Bool, Property.get ndebug s2.1 s2.2 T2 = .returned v2 := by
  have hown := Property.construct_owns h0 a0 key T0 v0
  obtain ⟨s12, h1, h2, h3⟩ :=
    Property.runSets_held (calls ++ [⟨T1, v1, a1⟩, ⟨T2, v2, a2⟩]) _ _ hown
  obtain ⟨s2, h4, h5, h6⟩ := Property.runSets_held (calls ++ [⟨T2, v2, a3⟩]) _ _ hown
  have e12 : Property.heldAfter (⟨T0, v0⟩ : Placeholder R)
      (calls ++ [⟨T1, v1, a1⟩, ⟨T2, v2, a2⟩]) = ⟨T2, v2⟩ := by
    have : calls ++ [(⟨T1, v1, a1⟩ : SetCall R), ⟨T2, v2, a2⟩]
        = (calls ++ [⟨T1, v1, a1⟩]) ++ [⟨T2, v2, a2⟩] := by simp
    rw [this, Property.heldAfter_append]
  have e2 : Property.heldAfter (⟨T0, v0⟩ : Placeholder R) (calls ++ [⟨T2, v2, a3⟩])
      = ⟨T2, v2⟩ := Property.heldAfter_append _ _ _
  rw [e12] at h2
  rw [e2] at h5
  refine ⟨s12, s2, h1, h4, h3.trans h6.symm, h2.2.trans h5.2.symm,
    fun ndebug T => Property.get_congr_owns s12 s2 _ h2 h5 ndebug T, h6, h5.2,
    fun ndebug => (Property.get_of_owns s2 _ h5 ndebug T2).1 rfl⟩

end Sandcastle
